import Mathlib

set_option maxHeartbeats 1000000

/-!
Verification development for the guidance-coupled diffusion sampling core
of the `discoart` package (src/discoart/__init__.py).  Each Python
function that the claims touch is shallowly embedded as an executable
Lean definition; machine floats are modelled as exact rationals (or reals
where square roots and inverse trigonometric functions are involved), and
stochastic draws (normal / uniform samples produced by torch) are passed
in explicitly as oracle functions.
-/

/-! ## Prompt parsing (`parse_prompt`, lines 203-210) -/

/-- Character strings are worked on as `List Char` (`String.toList` of
the Python value) so that every operation is structurally recursive and
evaluable by the kernel.  `startsWithL s p` models `s.startswith(p)`. -/
def startsWithL : List Char → List Char → Bool
  | _, [] => true
  | [], _ :: _ => false
  | x :: xs, y :: ys => x = y && startsWithL xs ys

/-- Split a character list at every occurrence of the separator
character, modelling Python's `s.split(sep)` for a one-character
separator: the result always has one more field than there are
separator occurrences. -/
def splitOnChar (c : Char) : List Char → List (List Char)
  | [] => [[]]
  | x :: xs =>
    let r := splitOnChar c xs
    if x = c then [] :: r
    else
      match r with
      | [] => [[x]]
      | h :: t => (x :: h) :: t

/-- Re-join fields with the separator character between them, modelling
Python's `sep.join(fields)`. -/
def joinSep (sep : Char) : List (List Char) → List Char
  | [] => []
  | [x] => x
  | x :: xs => x ++ sep :: joinSep sep xs

/-- Fold a list of decimal digit characters into the natural number they
denote (most significant digit first). -/
def digitsToNat (l : List Char) : Nat :=
  l.foldl (fun acc c => acc * 10 + (c.toNat - 48)) 0

/-- Model of Python's built-in `float()` restricted to plain signed
decimal literals such as `"2.5"`, `"3"`, `"-1"`: an optional sign, an
integer part, and an optional fractional part after one dot.  All weight
strings reaching `float()` in `parse_prompt` have this shape. -/
def pyFloat (s : List Char) : ℚ :=
  let (sgn, rest) :=
    if startsWithL s ['-'] then ((-1 : ℚ), s.drop 1)
    else if startsWithL s ['+'] then ((1 : ℚ), s.drop 1)
    else ((1 : ℚ), s)
  match splitOnChar '.' rest with
  | [ip] => sgn * (digitsToNat ip : ℚ)
  | [ip, fp] =>
      sgn * ((digitsToNat ip : ℚ) + (digitsToNat fp : ℚ) / (10 ^ fp.length : ℚ))
  | _ => 0

/-- Model of Python's `str.rsplit(sep, maxsplit)` for a one-character
separator: split at every occurrence, then re-join all but the last
`maxsplit` fields. -/
def pyRsplit (sep : Char) (maxsplit : Nat) (s : List Char) : List (List Char) :=
  let parts := splitOnChar sep s
  if parts.length ≤ maxsplit + 1 then parts
  else
    let k := parts.length - maxsplit
    [joinSep sep (parts.take k)] ++ parts.drop k

/-- Embedding of `parse_prompt` (lines 203-210): URLs re-join the scheme
colon, otherwise one right-split; missing fields are padded from
`['', '1']`. -/
def parse_prompt (prompt : String) : String × ℚ :=
  let cs := prompt.toList
  let vals :=
    if startsWithL cs "http://".toList || startsWithL cs "https://".toList then
      match pyRsplit ':' 2 cs with
      | v0 :: v1 :: rest => (v0 ++ ':' :: v1) :: rest
      | short => short
    else
      pyRsplit ':' 1 cs
  let vals := vals ++ ([[], ['1']].drop vals.length)
  (String.mk (vals.getD 0 []), pyFloat (vals.getD 1 ['1']))

/-! ## Per-model weight construction (`do_run`, lines 545-555) -/

/-- Embedding of the per-clip-model stat construction in `do_run`
(lines 545-555): the weights are the parsed prompt weights; if their sum
is within `1e-3` of zero in absolute value a `RuntimeError` is raised,
otherwise each weight is divided by the absolute value of the sum. -/
def model_stat_weights (text_prompts : List String) : Except String (List ℚ) :=
  let ws := text_prompts.map (fun p => (parse_prompt p).2)
  if |ws.sum| < 1 / 1000 then
    Except.error "The weights must not sum to 0."
  else
    Except.ok (ws.map (fun w => w / |ws.sum|))

/-- The model-stat loop runs in `do_run` before the sampling loop; a
raised `RuntimeError` therefore propagates before any sampling work.  The
sampler is abstracted as a thunk producing its step outputs. -/
def do_run_with_stats (text_prompts : List String)
    (sampler : List ℚ → List ℕ) : Except String (List ℕ) := do
  let ws ← model_stat_weights text_prompts
  pure (sampler ws)

/-! ## Guidance-function tail: NaN guard and clamping (`cond_fn`, lines 644-654) -/

/-- One scalar of a torch tensor: NaN, one of the two infinities, or a
finite value (modelled as an exact rational). -/
inductive FVal where
  | nan : FVal
  | inf : FVal
  | ninf : FVal
  | fin (q : ℚ) : FVal
deriving DecidableEq, Repr

/-- Torch's `isnan` on one scalar: true exactly on NaN (infinities are
not NaN). -/
def FVal.isnan : FVal → Bool
  | .nan => true
  | _ => false

/-- `torch.isnan(g).any()` over a flattened tensor. -/
def hasNaN (g : List FVal) : Bool := g.any FVal.isnan

/-- Embedding of the tail of `cond_fn` (lines 644-654).  `x_in_grad` is
the raw accumulated gradient; `backprop` abstracts
`-torch.autograd.grad(x_in, x, x_in_grad)[0]`, `clampFn` abstracts the
`grad * magnitude.clamp(max=clamp_max) / magnitude` rescaling, and `n` is
the number of scalars of `x` (so `List.replicate n (FVal.fin 0)` is
`torch.zeros_like(x)`).  The branch structure is the source's: the guard
is `torch.isnan(x_in_grad).any()`, and clamping runs only when
`clamp_grad` holds and the guard did not fire. -/
def cond_fn_tail (clamp_grad : Bool) (clampFn backprop : List FVal → List FVal)
    (n : Nat) (x_in_grad : List FVal) : List FVal :=
  let x_is_NaN := hasNaN x_in_grad
  let grad :=
    if x_is_NaN = false then backprop x_in_grad
    else List.replicate n (FVal.fin 0)
  if clamp_grad = true ∧ x_is_NaN = false then clampFn grad else grad

/-! ## Target-embedding construction (`do_run`, lines 545-549) -/

/-- Embedding of one iteration of the prompt loop in the model-stat
construction (lines 545-549): `txt, weight = parse_prompt(prompt)` binds
the parsed text, which is immediately overwritten by
`clip_model.encode_text(clip.tokenize(prompt))` applied to the raw
prompt string; `encode` abstracts that composite.  Only the parsed
weight survives. -/
def model_stat_entry {E : Type} (encode : String → E) (prompt : String) : E × ℚ :=
  let txt := (parse_prompt prompt).1
  let weight := (parse_prompt prompt).2
  let txt := encode prompt
  (txt, weight)

/-! ## Seeding and the batch loop (`_set_seed` lines 738-743, `do_run` lines 665-671) -/

/-- The seeds held by the four random sources touched by `_set_seed`,
plus the cudnn determinism flag it sets. -/
structure RandomState where
  np_seed : ℤ
  py_seed : ℤ
  torch_seed : ℤ
  cuda_seed : ℤ
  cudnn_deterministic : Bool
deriving DecidableEq, Repr

/-- Embedding of `_set_seed` (lines 738-743): numpy, python `random`,
torch and torch-cuda are all seeded with the same value and cudnn is put
in deterministic mode. -/
def set_seed (seed : ℤ) : RandomState :=
  { np_seed := seed
    py_seed := seed
    torch_seed := seed
    cuda_seed := seed
    cudnn_deterministic := true }

/-- Embedding of the head of the batch loop of `do_run` (lines 665-671):
for each `_nb` in `range(batch_size)`, in order, the seed
`org_seed + _nb` is installed via `_set_seed` and output `_nb` is then
generated.  The list records, in execution order, the random state in
force when each output index is generated. -/
def do_run_batch_seeds (org_seed : ℤ) (batch_size : Nat) : List (RandomState × Nat) :=
  (List.range batch_size).map (fun (nb : ℕ) => (set_seed (org_seed + (nb : ℤ)), nb))

/-! ## Cutout schedules (`create` defaults lines 236-238, `do_run` lines 448-450, `cond_fn` lines 605-608) -/

/-- Value of `eval('[12]*400+[4]*600')`, the default `cut_overview`
schedule expression evaluated at line 448. -/
def cut_overview_sched : List ℕ := List.replicate 400 12 ++ List.replicate 600 4

/-- Value of `eval('[4]*400+[12]*600')`, the default `cut_innercut`
schedule expression evaluated at line 449. -/
def cut_innercut_sched : List ℕ := List.replicate 400 4 ++ List.replicate 600 12

/-- Value of `eval('[0.2]*400+[0]*600')`, the default `cut_icgray_p`
schedule expression evaluated at line 450. -/
def cut_icgray_p_sched : List ℚ := List.replicate 400 (1 / 5) ++ List.replicate 600 0

/-- The `diffusion_steps` value configured by `load_diffusion_model`
(line 181): `(1000 // steps) * steps if steps < 1000 else steps`. -/
def diffusion_steps_of (steps : ℕ) : ℕ :=
  if steps < 1000 then (1000 / steps) * steps else steps

/-- The schedule lookup index used by `cond_fn` (lines 605-608):
`1000 - t_int` where `t_int = int(t.item()) + 1`. -/
def sched_index (t : ℕ) : ℕ := 1000 - (t + 1)

/-! ## Cutout generators (`MakeCutouts` lines 299-327, `MakeCutoutsDango` lines 356-408) -/

/-- Torch scalar `clip` to the interval `[lo, hi]` (lower bound applied
first, then the upper bound, as torch does). -/
def clipQ (q lo hi : ℚ) : ℚ := min (max q lo) hi

/-- Provenance of one cutout of `MakeCutouts.forward`: either the full
uncropped padded image, or a square crop of the stated side length at
the stated random offset. -/
inductive CutSrc where
  | full : CutSrc
  | crop (size : ℤ) (offx offy : ℕ) : CutSrc
deriving DecidableEq, Repr

/-- One entry of the batch produced by `MakeCutouts.forward`: its
provenance, whether the augmentation pipeline ran on it, and the size it
was resampled to. -/
structure Cutout where
  src : CutSrc
  augmented : Bool
  out_h : ℕ
  out_w : ℕ
deriving DecidableEq, Repr

instance : Inhabited Cutout :=
  ⟨{ src := CutSrc.full, augmented := false, out_h := 0, out_w := 0 }⟩

/-- Discriminator: whether a cutout is a copy of the full uncropped
padded image. -/
def Cutout.isFull (c : Cutout) : Bool :=
  match c.src with
  | CutSrc.full => true
  | CutSrc.crop _ _ _ => false

/-- Embedding of `MakeCutouts.forward` (lines 299-327).  The input of
shape `[n, c, h, w]` is padded on all four sides by `h // 4`
(`T.Pad(input.shape[2] // 4)`), giving `sideY = h + 2*(h//4)` and
`sideX = w + 2*(h//4)`; `max_size = min(sideX, sideY)`.  Each of the
`cutn` iterations appends one cutout resampled to
`(cut_size, cut_size)`: iterations with `ch > cutn - cutn // 4` use the
full padded image, the rest a square crop of side
`int(max_size * normal(0.8, 0.3).clip(cut_size / max_size, 1.0))` for
the iteration's normal draw `normal_draw ch`, at the iteration's random
offsets.  The offset draws are recorded unchanged; their admissible
range (`randint(0, abs(side - size + 1))`) plays no part in the claims.
Augmentation runs unless the constructor flag `skip_augs` was set. -/
def MakeCutouts_forward (cut_size cutn : ℕ) (self_skip : Bool)
    (h w : ℕ) (normal_draw : ℕ → ℚ) (offx_draw offy_draw : ℕ → ℕ) : List Cutout :=
  let sideY := h + 2 * (h / 4)
  let sideX := w + 2 * (h / 4)
  let max_size := min sideX sideY
  (List.range cutn).map (fun ch =>
    let src :=
      if ch > cutn - cutn / 4 then CutSrc.full
      else
        let size :=
          ⌊(max_size : ℚ) * clipQ (normal_draw ch) ((cut_size : ℚ) / (max_size : ℚ)) 1⌋
        CutSrc.crop size (offx_draw ch) (offy_draw ch)
    { src := src, augmented := ! self_skip, out_h := cut_size, out_w := cut_size })

/-- Provenance of one cutout of `MakeCutoutsDango.forward`: an overview
view of the padded-and-resized whole image (possibly flipped and/or
grayscaled), or an inner crop of the stated side length, possibly
grayscaled. -/
inductive DCutSrc where
  | overview (flip gray : Bool) : DCutSrc
  | inner (size : ℤ) (offx offy : ℕ) (gray : Bool) : DCutSrc
deriving DecidableEq, Repr

/-- One entry of the batch produced by `MakeCutoutsDango.forward`. -/
structure DCutout where
  src : DCutSrc
  out_h : ℕ
  out_w : ℕ
deriving DecidableEq, Repr

/-- The overview views of `MakeCutoutsDango.forward` (lines 375-388),
following the source ladder: identity for `Overview >= 1`, grayscale for
`>= 2`, horizontal flip for `>= 3`, grayscale+flip for `== 4`, and
`Overview` repeated identity views when `Overview > 4`. -/
def dango_overview_cuts (Overview : ℕ) : List DCutSrc :=
  if Overview > 0 then
    if Overview ≤ 4 then
      (if Overview ≥ 1 then [DCutSrc.overview false false] else [])
        ++ (if Overview ≥ 2 then [DCutSrc.overview false true] else [])
        ++ (if Overview ≥ 3 then [DCutSrc.overview true false] else [])
        ++ (if Overview = 4 then [DCutSrc.overview true true] else [])
    else
      List.replicate Overview (DCutSrc.overview false false)
  else []

/-- The inner-crop views of `MakeCutoutsDango.forward` (lines 390-402):
`size = int(rand_pow * (max_size - min_size) + min_size)` with
`max_size = min(sideX, sideY)` and
`min_size = min(sideX, sideY, cut_size)`; crops with
`i <= int(IC_Grey_P * InnerCrop)` are grayscaled. -/
def dango_inner_cuts (cut_size InnerCrop : ℕ) (IC_Grey_P : ℚ) (h w : ℕ)
    (size_draw : ℕ → ℚ) (offx_draw offy_draw : ℕ → ℕ) : List DCutSrc :=
  let sideY := h
  let sideX := w
  let max_size := min sideX sideY
  let min_size := min (min sideX sideY) cut_size
  (List.range InnerCrop).map (fun i =>
    let size := ⌊size_draw i * ((max_size : ℚ) - (min_size : ℚ)) + (min_size : ℚ)⌋
    DCutSrc.inner size (offx_draw i) (offy_draw i)
      (decide ((i : ℤ) ≤ ⌊IC_Grey_P * (InnerCrop : ℚ)⌋)))

/-- Embedding of `MakeCutoutsDango.forward` (lines 356-408).
`size_draw i` stands for the value of `torch.rand([]) ** IC_Size_Pow` at
inner-crop iteration `i` (a random draw in `[0, 1)` raised to a real
power, kept as an oracle).  Every view is resized to
`(cut_size, cut_size)`.  The source's `return cutouts` statement sits
inside `if skip_augs is not True:` and the function otherwise falls off
the end, so the result is `none` when the module-level `skip_augs` flag
is true. -/
def MakeCutoutsDango_forward (cut_size Overview InnerCrop : ℕ)
    (IC_Grey_P : ℚ) (global_skip : Bool) (h w : ℕ)
    (size_draw : ℕ → ℚ) (offx_draw offy_draw : ℕ → ℕ) : Option (List DCutout) :=
  let cutouts := dango_overview_cuts Overview
    ++ dango_inner_cuts cut_size InnerCrop IC_Grey_P h w size_draw offx_draw offy_draw
  if global_skip ≠ true then
    some (cutouts.map (fun s => { src := s, out_h := cut_size, out_w := cut_size }))
  else
    none

/-! ## Real-valued loss and clamping kernels (`spherical_dist_loss` lines 562-565, `cond_fn` lines 649-654) -/

/-- The dot product `∑ i, x i * y i` of two flattened embeddings. -/
def dotp {n : ℕ} (x y : Fin n → ℝ) : ℝ := ∑ i, x i * y i

/-- Euclidean norm of a flattened tensor, as computed by
`Tensor.norm(dim=-1)`. -/
noncomputable def l2norm {n : ℕ} (v : Fin n → ℝ) : ℝ :=
  Real.sqrt (∑ i, v i ^ 2)

/-- Embedding of `torch.nn.functional.normalize(v, dim=-1)` with its
default `eps = 1e-12`: division by `max(‖v‖, eps)`. -/
noncomputable def F_normalize {n : ℕ} (v : Fin n → ℝ) : Fin n → ℝ :=
  fun i => v i / max (l2norm v) (1 / 10 ^ 12)

/-- Embedding of `spherical_dist_loss` (lines 562-565) for one candidate
embedding and one target embedding:
`(x - y).norm(dim=-1).div(2).arcsin().pow(2).mul(2)` after unit
normalization of both arguments. -/
noncomputable def spherical_dist_loss {n : ℕ} (x y : Fin n → ℝ) : ℝ :=
  Real.arcsin (l2norm (fun i => F_normalize x i - F_normalize y i) / 2) ^ 2 * 2

/-- Root-mean-square magnitude `grad.square().mean().sqrt()` of a
flattened gradient tensor (line 650). -/
noncomputable def rms {n : ℕ} (g : Fin n → ℝ) : ℝ :=
  Real.sqrt ((∑ i, g i ^ 2) / n)

/-- Embedding of the clamping branch of `cond_fn` (lines 649-654):
`grad * magnitude.clamp(max=clamp_max) / magnitude` with
`magnitude = grad.square().mean().sqrt()`. -/
noncomputable def cond_fn_clamp {n : ℕ} (clamp_max : ℝ) (grad : Fin n → ℝ) : Fin n → ℝ :=
  fun i => grad i * min (rms grad) clamp_max / rms grad

/-! ## Theorems -/

/-- Claim C5: `parse_prompt` maps `"sunset:2.5"` to text `"sunset"` with
weight `2.5`, a prompt with no colon-weight suffix to weight `1.0`, and
for an `http://` prompt treats only the final colon-delimited segment as
the weight, so `"http://x.com/a:b.png:3"` maps to text
`"http://x.com/a:b.png"` with weight `3.0`. -/
theorem parse_prompt_weight_cases :
    parse_prompt "sunset:2.5" = ("sunset", 5 / 2) ∧
    parse_prompt "sunset" = ("sunset", 1) ∧
    parse_prompt "http://x.com/a:b.png:3" = ("http://x.com/a:b.png", 3) := by
  refine ⟨?_, ?_, ?_⟩ <;>
    simp [parse_prompt, pyRsplit, splitOnChar, joinSep, pyFloat, digitsToNat,
      startsWithL] <;>
    norm_num

/-- Claim C6: for every embedding model, if the parsed prompt weights
sum to near-zero in absolute value (threshold `1e-3`) the model-stat
construction raises the fatal `RuntimeError` before any sampling work;
otherwise the stored weight vector is each weight divided by the
absolute value of the sum. -/
theorem model_stat_weights_spec (prompts : List String)
    (h : ¬ |(prompts.map (fun p => (parse_prompt p).2)).sum| < 1 / 1000) :
    (∀ qs : List String,
        |(qs.map (fun p => (parse_prompt p).2)).sum| < 1 / 1000 →
          model_stat_weights qs = Except.error "The weights must not sum to 0." ∧
          ∀ f, do_run_with_stats qs f =
            Except.error "The weights must not sum to 0.") ∧
    model_stat_weights prompts =
      Except.ok ((prompts.map (fun p => (parse_prompt p).2)).map
        (fun w => w / |(prompts.map (fun p => (parse_prompt p).2)).sum|)) := by
  constructor
  · intro qs hqs
    have herr : model_stat_weights qs = Except.error "The weights must not sum to 0." := by
      unfold model_stat_weights
      rw [if_pos hqs]
    refine ⟨herr, fun f => ?_⟩
    unfold do_run_with_stats
    rw [herr]
    rfl
  · unfold model_stat_weights
    rw [if_neg h]

/-- Witness for C6: prompts `["a:2", "b"]` have weights `[2, 1]`, whose
sum passes the near-zero check, and the stored weights are `[2/3, 1/3]`. -/
theorem model_stat_weights_spec_witness :
    (¬ |((["a:2", "b"] : List String).map (fun p => (parse_prompt p).2)).sum| < 1 / 1000) ∧
    model_stat_weights ["a:2", "b"] =
      Except.ok (((["a:2", "b"] : List String).map (fun p => (parse_prompt p).2)).map
        (fun w => w / |((["a:2", "b"] : List String).map (fun p => (parse_prompt p).2)).sum|)) := by
  have h : ¬ |((["a:2", "b"] : List String).map (fun p => (parse_prompt p).2)).sum| < 1 / 1000 := by
    simp [parse_prompt, pyRsplit, splitOnChar, joinSep, pyFloat, digitsToNat, startsWithL]
    norm_num
  exact ⟨h, (model_stat_weights_spec ["a:2", "b"] h).2⟩

/-- Claim C1 counterexample: a positive-infinite (hence non-finite but
not NaN) value in the raw accumulated gradient does not trigger the
zero-gradient path of `cond_fn`: with clamping disabled and a backprop
context that merely propagates the accumulated gradient, the returned
gradient is `[inf]`, not the all-zero gradient of the same shape. -/
theorem cond_fn_tail_inf_not_zeroed :
    cond_fn_tail false id id 1 [FVal.inf] ≠ List.replicate 1 (FVal.fin 0) ∧
    cond_fn_tail false id id 1 [FVal.inf] = [FVal.inf] := by
  decide

/-- Claim C1 (amended): whenever the raw accumulated gradient contains a
NaN value, `cond_fn` returns the all-zero gradient of the sample's shape
— with no clamping applied to it, for either value of `clamp_grad` — and
control returns normally (the embedding is a total function, mirroring
the raise-free source path). -/
theorem cond_fn_tail_nan_zero (cg : Bool) (cf bp : List FVal → List FVal)
    (n : ℕ) (g : List FVal) (h : hasNaN g = true) :
    cond_fn_tail cg cf bp n g = List.replicate n (FVal.fin 0) := by
  simp [cond_fn_tail, h]

/-- Witness for the amended C1: a gradient `[NaN, 3]` with clamping
enabled still yields the all-zero gradient of shape 2. -/
theorem cond_fn_tail_nan_zero_witness :
    hasNaN [FVal.nan, FVal.fin 3] = true ∧
    cond_fn_tail true id id 2 [FVal.nan, FVal.fin 3] = List.replicate 2 (FVal.fin 0) :=
  ⟨by decide, cond_fn_tail_nan_zero true id id 2 [FVal.nan, FVal.fin 3] (by decide)⟩

/-- Claim C9: the orchestrator generates batch elements sequentially in
index order, and immediately before generating output `i` it re-seeds
all random sources (numpy, python, torch, torch-cuda) with
`base_seed + i`. -/
theorem do_run_batch_seeding (org_seed : ℤ) (batch_size i : ℕ)
    (hi : i < batch_size) :
    (do_run_batch_seeds org_seed batch_size).length = batch_size ∧
    (do_run_batch_seeds org_seed batch_size)[i]? =
      some (set_seed (org_seed + (i : ℤ)), i) ∧
    (do_run_batch_seeds org_seed batch_size).map Prod.snd =
      List.range batch_size ∧
    set_seed (org_seed + (i : ℤ)) =
      { np_seed := org_seed + (i : ℤ)
        py_seed := org_seed + (i : ℤ)
        torch_seed := org_seed + (i : ℤ)
        cuda_seed := org_seed + (i : ℤ)
        cudnn_deterministic := true } := by
  refine ⟨by simp [do_run_batch_seeds], ?_, ?_, rfl⟩
  · simp [do_run_batch_seeds, List.getElem?_map, List.getElem?_range, hi]
  · simp [do_run_batch_seeds, List.map_map, Function.comp_def]

/-- Witness for C9 at `base_seed = 7`, `batch_size = 3`, `i = 1`. -/
theorem do_run_batch_seeding_witness :
    (1 : ℕ) < 3 ∧
    ((do_run_batch_seeds 7 3).length = 3 ∧
      (do_run_batch_seeds 7 3)[1]? = some (set_seed (7 + ((1 : ℕ) : ℤ)), 1) ∧
      (do_run_batch_seeds 7 3).map Prod.snd = List.range 3 ∧
      set_seed (7 + ((1 : ℕ) : ℤ)) =
        { np_seed := 7 + ((1 : ℕ) : ℤ)
          py_seed := 7 + ((1 : ℕ) : ℤ)
          torch_seed := 7 + ((1 : ℕ) : ℤ)
          cuda_seed := 7 + ((1 : ℕ) : ℤ)
          cudnn_deterministic := true }) :=
  ⟨by norm_num, do_run_batch_seeding 7 3 1 (by norm_num)⟩

/-- Claim C10: the stored target embedding for a prompt is `encode_text`
of the full raw prompt string — any `:weight` suffix included — and only
the parsed weight is kept; the parsed text is discarded. -/
theorem model_stat_entry_raw_prompt :
    (∀ (E : Type) (encode : String → E) (prompt : String),
        model_stat_entry encode prompt = (encode prompt, (parse_prompt prompt).2)) ∧
    (∀ (E : Type) (encode : String → E),
        model_stat_entry encode "sunset:2.5" = (encode "sunset:2.5", 5 / 2)) := by
  refine ⟨fun E encode prompt => rfl, fun E encode => ?_⟩
  have h : (parse_prompt "sunset:2.5").2 = 5 / 2 := by
    simp [parse_prompt, pyRsplit, splitOnChar, joinSep, pyFloat, digitsToNat,
      startsWithL]
    norm_num
  simp [model_stat_entry, h]

/-- Claim C8: the evaluated default cutout schedule sequences each have
length exactly the total number of diffusion steps (1000, as configured
by `load_diffusion_model` for the default `steps = 250`), and the
guidance function's lookup index `1000 - (t + 1)` is in bounds for every
timestep `t ≤ 999` the sampler passes — in particular at both extremes —
so indexing never raises. -/
theorem cutout_sched_inbounds (t : ℕ) (ht : t ≤ 999) :
    cut_overview_sched.length = diffusion_steps_of 250 ∧
    cut_innercut_sched.length = diffusion_steps_of 250 ∧
    cut_icgray_p_sched.length = diffusion_steps_of 250 ∧
    sched_index t < cut_overview_sched.length ∧
    sched_index t < cut_innercut_sched.length ∧
    sched_index t < cut_icgray_p_sched.length := by
  have h1 : cut_overview_sched.length = 1000 := by
    rw [cut_overview_sched, List.length_append, List.length_replicate,
      List.length_replicate]
  have h2 : cut_innercut_sched.length = 1000 := by
    rw [cut_innercut_sched, List.length_append, List.length_replicate,
      List.length_replicate]
  have h3 : cut_icgray_p_sched.length = 1000 := by
    rw [cut_icgray_p_sched, List.length_append, List.length_replicate,
      List.length_replicate]
  have hd : diffusion_steps_of 250 = 1000 := by norm_num [diffusion_steps_of]
  have hi : sched_index t < 1000 := by unfold sched_index; omega
  exact ⟨by omega, by omega, by omega, by omega, by omega, by omega⟩

/-- Witness for C8 at the final timestep `t = 999` (steps-remaining 0). -/
theorem cutout_sched_inbounds_witness :
    (999 : ℕ) ≤ 999 ∧
    (cut_overview_sched.length = diffusion_steps_of 250 ∧
      cut_innercut_sched.length = diffusion_steps_of 250 ∧
      cut_icgray_p_sched.length = diffusion_steps_of 250 ∧
      sched_index 999 < cut_overview_sched.length ∧
      sched_index 999 < cut_innercut_sched.length ∧
      sched_index 999 < cut_icgray_p_sched.length) :=
  ⟨by norm_num, cutout_sched_inbounds 999 (by norm_num)⟩

/-- Claim C2 evidence: with the module-level `skip_augs` flag set,
`MakeCutoutsDango.forward` returns no batch at all (`None`, since its
only `return` statement is guarded by `if skip_augs is not True:`) — at
the concrete failing input and in general — whereas with the flag clear
it returns exactly `Overview + InnerCrop` entries, each of the
configured target size.  `MakeCutouts.forward` is also evaluated: it
always returns `cutn` entries of the target size. -/
theorem makeCutoutsDango_skip_augs_bug :
    MakeCutoutsDango_forward 224 4 2 (1 / 5) true 512 512 (fun _ => 1 / 2)
        (fun _ => 7) (fun _ => 9) = none ∧
    (∀ (cs Ov IC : ℕ) (g : ℚ) (h w : ℕ) (sd : ℕ → ℚ) (ox oy : ℕ → ℕ),
        MakeCutoutsDango_forward cs Ov IC g true h w sd ox oy = none) ∧
    (∀ (cs Ov IC : ℕ) (g : ℚ) (h w : ℕ) (sd : ℕ → ℚ) (ox oy : ℕ → ℕ),
        ∃ l : List DCutout,
          MakeCutoutsDango_forward cs Ov IC g false h w sd ox oy = some l ∧
          l.length = Ov + IC ∧
          ∀ c ∈ l, c.out_h = cs ∧ c.out_w = cs) ∧
    (∀ (cs cutn : ℕ) (sk : Bool) (h w : ℕ) (nd : ℕ → ℚ) (ox oy : ℕ → ℕ),
        (MakeCutouts_forward cs cutn sk h w nd ox oy).length = cutn ∧
        ∀ c ∈ MakeCutouts_forward cs cutn sk h w nd ox oy,
          c.out_h = cs ∧ c.out_w = cs) := by
  refine ⟨rfl, fun _ _ _ _ _ _ _ _ _ => rfl, ?_, ?_⟩
  · intro cs Ov IC g h w sd ox oy
    refine ⟨_, rfl, ?_, ?_⟩
    · rw [List.length_map, List.length_append]
      have h1 : (dango_overview_cuts Ov).length = Ov := by
        unfold dango_overview_cuts
        by_cases h0 : Ov > 0
        · by_cases h4 : Ov ≤ 4
          · rw [if_pos h0, if_pos h4]
            interval_cases Ov <;> simp
          · rw [if_pos h0, if_neg h4, List.length_replicate]
        · rw [if_neg h0, List.length_nil]
          omega
      have h2 : (dango_inner_cuts cs IC g h w sd ox oy).length = IC := by
        unfold dango_inner_cuts
        rw [List.length_map, List.length_range]
      rw [h1, h2]
    · intro c hc
      rw [List.mem_map] at hc
      obtain ⟨s, _, rfl⟩ := hc
      exact ⟨rfl, rfl⟩
  · intro cs cutn sk h w nd ox oy
    constructor
    · unfold MakeCutouts_forward
      rw [List.length_map, List.length_range]
    · intro c hc
      rw [MakeCutouts_forward, List.mem_map] at hc
      obtain ⟨ch, _, rfl⟩ := hc
      exact ⟨rfl, rfl⟩

/-- Helper: among `0, ..., n-1` exactly `n - (k+1)` indices exceed `k`. -/
theorem length_filter_range_gt (n k : ℕ) :
    ((List.range n).filter (fun i => decide (k < i))).length = n - (k + 1) := by
  induction n with
  | zero => simp
  | succ m ih =>
    rw [List.range_succ, List.filter_append, List.length_append, ih]
    by_cases h : k < m
    · simp only [List.filter_cons, List.filter_nil, decide_eq_true_eq, if_pos h]
      simp only [List.length_cons, List.length_nil]
      omega
    · simp only [List.filter_cons, List.filter_nil, decide_eq_true_eq, if_neg h]
      simp only [List.length_nil]
      omega

/-- Claim C7 counterexample: for `cutn = 8` the number of cutouts copied
from the full uncropped padded image is `1`, not the claimed
`cutn // 4 = 2` — the source guard `ch > cutn - cutn // 4` misses index
`cutn - cutn // 4` itself. -/
theorem makeCutouts_full_quarter_cex :
    ((MakeCutouts_forward 64 8 false 256 256 (fun _ => 4 / 5) (fun _ => 7)
        (fun _ => 9)).filter Cutout.isFull).length = 1 ∧
    (8 : ℕ) / 4 = 2 := by
  constructor
  · rfl
  · rfl

/-- Claim C7 (amended): in `MakeCutouts.forward`, exactly
`cutn // 4 - 1` of the `cutn` cutouts — the last ones generated, those
at indices `i > cutn - cutn // 4` — are copies of the full uncropped
padded image, and every other cutout is a random square crop whose side
length, derived from the iteration's `normal_(mean=0.8, std=0.3)` draw,
is clamped between the target cutout size and the limiting (smaller
padded) dimension. -/
theorem makeCutouts_forward_structure (cut_size cutn h w : ℕ) (sk : Bool)
    (nd : ℕ → ℚ) (ox oy : ℕ → ℕ) (hcs : 0 < cut_size)
    (hle : cut_size ≤ min (w + 2 * (h / 4)) (h + 2 * (h / 4))) :
    ((MakeCutouts_forward cut_size cutn sk h w nd ox oy).filter
        Cutout.isFull).length = cutn / 4 - 1 ∧
    (∀ i, i < cutn → cutn - cutn / 4 < i →
      (MakeCutouts_forward cut_size cutn sk h w nd ox oy)[i]? =
        some { src := CutSrc.full, augmented := ! sk,
               out_h := cut_size, out_w := cut_size }) ∧
    (∀ i, i < cutn → i ≤ cutn - cutn / 4 →
      ∃ sz : ℤ,
        (MakeCutouts_forward cut_size cutn sk h w nd ox oy)[i]? =
          some { src := CutSrc.crop sz (ox i) (oy i), augmented := ! sk,
                 out_h := cut_size, out_w := cut_size } ∧
        (cut_size : ℤ) ≤ sz ∧
        sz ≤ ((min (w + 2 * (h / 4)) (h + 2 * (h / 4)) : ℕ) : ℤ)) := by
  have hM0 : 0 < min (w + 2 * (h / 4)) (h + 2 * (h / 4)) := lt_of_lt_of_le hcs hle
  have hget : ∀ i, i < cutn →
      (MakeCutouts_forward cut_size cutn sk h w nd ox oy)[i]? =
        some (if i > cutn - cutn / 4 then
                ({ src := CutSrc.full, augmented := ! sk,
                   out_h := cut_size, out_w := cut_size } : Cutout)
              else
                { src := CutSrc.crop
                    ⌊((min (w + 2 * (h / 4)) (h + 2 * (h / 4)) : ℕ) : ℚ) *
                      clipQ (nd i)
                        ((cut_size : ℚ) /
                          ((min (w + 2 * (h / 4)) (h + 2 * (h / 4)) : ℕ) : ℚ)) 1⌋
                    (ox i) (oy i),
                  augmented := ! sk, out_h := cut_size, out_w := cut_size }) := by
    intro i hi
    unfold MakeCutouts_forward
    rw [List.getElem?_map, List.getElem?_range hi]
    rw [Option.map_some']
    by_cases hgt : i > cutn - cutn / 4
    · rw [if_pos hgt, if_pos hgt]
    · rw [if_neg hgt, if_neg hgt]
  refine ⟨?_, ?_, ?_⟩
  · unfold MakeCutouts_forward
    rw [List.filter_map, List.length_map]
    rw [List.filter_congr (q := fun i => decide (cutn - cutn / 4 < i)) ?_]
    · rw [length_filter_range_gt]
      omega
    · intro a _
      by_cases hgt : a > cutn - cutn / 4
      · simp [Cutout.isFull, Function.comp, hgt]
      · simp [Cutout.isFull, Function.comp, hgt]
  · intro i hi hgt
    rw [hget i hi, if_pos hgt]
  · intro i hi hle2
    have hgt : ¬ (i > cutn - cutn / 4) := not_lt.mpr hle2
    rw [hget i hi, if_neg hgt]
    refine ⟨_, rfl, ?_, ?_⟩
    · rw [Int.le_floor]
      have hMq : (0 : ℚ) < ((min (w + 2 * (h / 4)) (h + 2 * (h / 4)) : ℕ) : ℚ) := by
        exact_mod_cast hM0
      have hlo1 : (cut_size : ℚ) /
          ((min (w + 2 * (h / 4)) (h + 2 * (h / 4)) : ℕ) : ℚ) ≤ 1 := by
        rw [div_le_one hMq]
        exact_mod_cast hle
      have hclip : (cut_size : ℚ) /
            ((min (w + 2 * (h / 4)) (h + 2 * (h / 4)) : ℕ) : ℚ) ≤
          clipQ (nd i)
            ((cut_size : ℚ) /
              ((min (w + 2 * (h / 4)) (h + 2 * (h / 4)) : ℕ) : ℚ)) 1 := by
        unfold clipQ
        exact le_min (le_max_right _ _) hlo1
      have hmul := mul_le_mul_of_nonneg_left hclip hMq.le
      have heq : ((min (w + 2 * (h / 4)) (h + 2 * (h / 4)) : ℕ) : ℚ) *
          ((cut_size : ℚ) /
            ((min (w + 2 * (h / 4)) (h + 2 * (h / 4)) : ℕ) : ℚ)) =
          (cut_size : ℚ) := by
        rw [mul_comm]
        exact div_mul_cancel₀ _ hMq.ne'
      have hfin : (cut_size : ℚ) ≤
          ((min (w + 2 * (h / 4)) (h + 2 * (h / 4)) : ℕ) : ℚ) *
            clipQ (nd i)
              ((cut_size : ℚ) /
                ((min (w + 2 * (h / 4)) (h + 2 * (h / 4)) : ℕ) : ℚ)) 1 :=
        le_trans (le_of_eq heq.symm) hmul
      exact_mod_cast hfin
    · have hMq : (0 : ℚ) ≤ ((min (w + 2 * (h / 4)) (h + 2 * (h / 4)) : ℕ) : ℚ) := by
        positivity
      have hclip : clipQ (nd i)
            ((cut_size : ℚ) /
              ((min (w + 2 * (h / 4)) (h + 2 * (h / 4)) : ℕ) : ℚ)) 1 ≤ 1 :=
        min_le_right _ _
      have hmul : ((min (w + 2 * (h / 4)) (h + 2 * (h / 4)) : ℕ) : ℚ) *
            clipQ (nd i)
              ((cut_size : ℚ) /
                ((min (w + 2 * (h / 4)) (h + 2 * (h / 4)) : ℕ) : ℚ)) 1 ≤
          ((min (w + 2 * (h / 4)) (h + 2 * (h / 4)) : ℕ) : ℚ) := by
        calc _ ≤ ((min (w + 2 * (h / 4)) (h + 2 * (h / 4)) : ℕ) : ℚ) * 1 :=
              mul_le_mul_of_nonneg_left hclip hMq
          _ = _ := mul_one _
      calc ⌊((min (w + 2 * (h / 4)) (h + 2 * (h / 4)) : ℕ) : ℚ) *
              clipQ (nd i)
                ((cut_size : ℚ) /
                  ((min (w + 2 * (h / 4)) (h + 2 * (h / 4)) : ℕ) : ℚ)) 1⌋ ≤
            ⌊((min (w + 2 * (h / 4)) (h + 2 * (h / 4)) : ℕ) : ℚ)⌋ :=
          Int.floor_le_floor hmul
        _ = ((min (w + 2 * (h / 4)) (h + 2 * (h / 4)) : ℕ) : ℤ) :=
          Int.floor_natCast _

/-- Witness for the amended C7 on an 8-cutout run over a 256×256 image
with 64-pixel target cutouts. -/
theorem makeCutouts_forward_structure_witness :
    (0 : ℕ) < 64 ∧
    64 ≤ min (256 + 2 * (256 / 4)) (256 + 2 * (256 / 4)) ∧
    (((MakeCutouts_forward 64 8 false 256 256 (fun _ => 4 / 5) (fun _ => 7)
          (fun _ => 9)).filter Cutout.isFull).length = 8 / 4 - 1 ∧
      (∀ i, i < 8 → 8 - 8 / 4 < i →
        (MakeCutouts_forward 64 8 false 256 256 (fun _ => 4 / 5) (fun _ => 7)
            (fun _ => 9))[i]? =
          some { src := CutSrc.full, augmented := ! false,
                 out_h := 64, out_w := 64 }) ∧
      (∀ i, i < 8 → i ≤ 8 - 8 / 4 →
        ∃ sz : ℤ,
          (MakeCutouts_forward 64 8 false 256 256 (fun _ => 4 / 5) (fun _ => 7)
              (fun _ => 9))[i]? =
            some { src := CutSrc.crop sz ((fun _ => 7) i) ((fun _ => 9) i),
                   augmented := ! false, out_h := 64, out_w := 64 } ∧
          (64 : ℤ) ≤ sz ∧
          sz ≤ ((min (256 + 2 * (256 / 4)) (256 + 2 * (256 / 4)) : ℕ) : ℤ))) :=
  ⟨by norm_num, by omega,
    makeCutouts_forward_structure 64 8 256 256 false (fun _ => 4 / 5)
      (fun _ => 7) (fun _ => 9) (by norm_num) (by omega)⟩

/-- Helper: the root-mean-square magnitude scales by `|c|` under scalar
multiplication of the gradient. -/
theorem rms_smul {n : ℕ} (c : ℝ) (g : Fin n → ℝ) :
    rms (fun i => c * g i) = |c| * rms g := by
  unfold rms
  rw [show ∑ i, (c * g i) ^ 2 = c ^ 2 * ∑ i, g i ^ 2 by
    rw [Finset.mul_sum]
    exact Finset.sum_congr rfl (fun i _ => by ring)]
  rw [mul_div_assoc, Real.sqrt_mul (sq_nonneg _), Real.sqrt_sq_eq_abs]

/-- Claim C4: when the clamping branch of `cond_fn` runs on a finite
gradient whose root-mean-square magnitude exceeds the (positive) ceiling
`clamp_max`, the clamped gradient has root-mean-square magnitude exactly
`clamp_max` and is a positive scalar multiple of the unclamped gradient
(identical direction). -/
theorem cond_fn_clamp_spec {n : ℕ} (g : Fin n → ℝ) (cmax : ℝ)
    (hc : 0 < cmax) (hm : cmax < rms g) :
    rms (cond_fn_clamp cmax g) = cmax ∧
    ∃ c : ℝ, 0 < c ∧ ∀ i, cond_fn_clamp cmax g i = c * g i := by
  have hM : 0 < rms g := hc.trans hm
  have hmin : min (rms g) cmax = cmax := min_eq_right hm.le
  have hfun : cond_fn_clamp cmax g = fun i => (cmax / rms g) * g i := by
    funext i
    unfold cond_fn_clamp
    rw [hmin]
    ring
  constructor
  · rw [hfun, rms_smul, abs_of_pos (div_pos hc hM), div_mul_cancel₀ _ hM.ne']
  · exact ⟨cmax / rms g, div_pos hc hM, fun i => by rw [hfun]⟩

/-- Witness for C4: the one-element gradient `[2]` has RMS `2`, which the
ceiling `1` clamps to RMS exactly `1` with direction preserved. -/
theorem cond_fn_clamp_spec_witness :
    (0 : ℝ) < 1 ∧ 1 < rms (fun _ : Fin 1 => (2 : ℝ)) ∧
    (rms (cond_fn_clamp 1 (fun _ : Fin 1 => (2 : ℝ))) = 1 ∧
      ∃ c : ℝ, 0 < c ∧ ∀ i, cond_fn_clamp 1 (fun _ : Fin 1 => (2 : ℝ)) i = c * 2) := by
  have hrms : rms (fun _ : Fin 1 => (2 : ℝ)) = 2 := by
    unfold rms
    rw [Fin.sum_univ_one]
    have h4 : ((2 : ℝ) ^ 2 / ((1 : ℕ) : ℝ)) = 4 := by norm_num
    rw [h4, show (4 : ℝ) = 2 ^ 2 by norm_num]
    exact Real.sqrt_sq (by norm_num)
  exact ⟨by norm_num, by rw [hrms]; norm_num,
    cond_fn_clamp_spec (fun _ : Fin 1 => (2 : ℝ)) 1 (by norm_num)
      (by rw [hrms]; norm_num)⟩

/-- Helper: a vector of unit Euclidean norm has unit sum of squares. -/
theorem sum_sq_of_l2norm_one {n : ℕ} {v : Fin n → ℝ} (h : l2norm v = 1) :
    ∑ i, v i ^ 2 = 1 := by
  unfold l2norm at h
  exact Real.sqrt_eq_one.mp h

/-- Helper: `F.normalize` is the identity on unit vectors (the `1e-12`
epsilon guard does not bind). -/
theorem F_normalize_of_unit {n : ℕ} {v : Fin n → ℝ} (h : l2norm v = 1) :
    F_normalize v = v := by
  funext i
  unfold F_normalize
  rw [h, max_eq_left (by norm_num : (1 : ℝ) / 10 ^ 12 ≤ 1)]
  exact div_one _

/-- Helper: Cauchy-Schwarz for unit vectors. -/
theorem abs_dotp_le_one {n : ℕ} {x y : Fin n → ℝ}
    (hx : l2norm x = 1) (hy : l2norm y = 1) : |dotp x y| ≤ 1 := by
  have hcs := Finset.sum_mul_sq_le_sq_mul_sq Finset.univ x y
  rw [sum_sq_of_l2norm_one hx, sum_sq_of_l2norm_one hy, mul_one] at hcs
  have hsq : (dotp x y) ^ 2 ≤ 1 := by
    unfold dotp
    exact hcs
  exact (sq_le_one_iff_abs_le_one _).mp hsq

/-- Helper: the chord length between unit vectors in terms of their dot
product. -/
theorem l2norm_sub_unit {n : ℕ} {x y : Fin n → ℝ}
    (hx : l2norm x = 1) (hy : l2norm y = 1) :
    l2norm (fun i => x i - y i) = Real.sqrt (2 - 2 * dotp x y) := by
  unfold l2norm
  congr 1
  have hterm : ∀ i : Fin n, (x i - y i) ^ 2 = x i ^ 2 + y i ^ 2 - 2 * (x i * y i) :=
    fun i => by ring
  rw [Finset.sum_congr rfl (fun i _ => hterm i), Finset.sum_sub_distrib,
    Finset.sum_add_distrib, ← Finset.mul_sum,
    sum_sq_of_l2norm_one hx, sum_sq_of_l2norm_one hy]
  unfold dotp
  ring

/-- Helper: on unit vectors the spherical distance loss is half the
squared angular separation. -/
theorem spherical_dist_loss_angle {n : ℕ} {x y : Fin n → ℝ}
    (hx : l2norm x = 1) (hy : l2norm y = 1) :
    spherical_dist_loss x y = Real.arccos (dotp x y) ^ 2 / 2 := by
  have hd := abs_dotp_le_one hx hy
  obtain ⟨hd1, hd2⟩ := abs_le.mp hd
  have hcos : Real.cos (Real.arccos (dotp x y)) = dotp x y := Real.cos_arccos hd1 hd2
  have hθ0 : 0 ≤ Real.arccos (dotp x y) := Real.arccos_nonneg _
  have hθπ : Real.arccos (dotp x y) ≤ Real.pi := Real.arccos_le_pi _
  have hπ := Real.pi_pos
  have hsin0 : 0 ≤ Real.sin (Real.arccos (dotp x y) / 2) :=
    Real.sin_nonneg_of_nonneg_of_le_pi (by linarith) (by linarith)
  have hkey : 2 - 2 * dotp x y
      = (2 * Real.sin (Real.arccos (dotp x y) / 2)) ^ 2 := by
    have hs := Real.sin_sq_eq_half_sub (Real.arccos (dotp x y) / 2)
    rw [show 2 * (Real.arccos (dotp x y) / 2) = Real.arccos (dotp x y) by ring,
      hcos] at hs
    have hexp : (2 * Real.sin (Real.arccos (dotp x y) / 2)) ^ 2
        = 4 * Real.sin (Real.arccos (dotp x y) / 2) ^ 2 := by ring
    rw [hexp, hs]
    ring
  unfold spherical_dist_loss
  rw [F_normalize_of_unit hx, F_normalize_of_unit hy, l2norm_sub_unit hx hy,
    hkey, Real.sqrt_sq (by positivity),
    show 2 * Real.sin (Real.arccos (dotp x y) / 2) / 2
      = Real.sin (Real.arccos (dotp x y) / 2) by ring,
    Real.arcsin_sin (by linarith) (by linarith)]
  ring

/-- Helper: the loss lies in `[0, pi^2/2]` for arbitrary embeddings. -/
theorem spherical_dist_loss_range {n : ℕ} (x y : Fin n → ℝ) :
    0 ≤ spherical_dist_loss x y ∧ spherical_dist_loss x y ≤ Real.pi ^ 2 / 2 := by
  unfold spherical_dist_loss
  constructor
  · positivity
  · have h1 := Real.arcsin_le_pi_div_two
      (l2norm (fun i => F_normalize x i - F_normalize y i) / 2)
    have h2 := Real.neg_pi_div_two_le_arcsin
      (l2norm (fun i => F_normalize x i - F_normalize y i) / 2)
    have habs : Real.arcsin
        (l2norm (fun i => F_normalize x i - F_normalize y i) / 2) ^ 2
        ≤ (Real.pi / 2) ^ 2 := sq_le_sq' h2 h1
    nlinarith [habs]

/-- Helper: the loss vanishes when the normalized embeddings coincide. -/
theorem spherical_dist_loss_eq_zero {n : ℕ} {x y : Fin n → ℝ}
    (h : F_normalize x = F_normalize y) : spherical_dist_loss x y = 0 := by
  unfold spherical_dist_loss
  have hdiff : (fun i => F_normalize x i - F_normalize y i)
      = fun _ : Fin n => (0 : ℝ) := by
    funext i
    rw [h]
    ring
  rw [hdiff]
  have hz : l2norm (fun _ : Fin n => (0 : ℝ)) = 0 := by
    unfold l2norm
    simp
  rw [hz]
  norm_num [Real.arcsin_zero]

/-- Claim C3 counterexample: for the antipodal unit embeddings `[1]` and
`[-1]` the spherical distance loss equals `pi^2/2 > 2`, so the loss does
not lie in `[0, 2]`. -/
theorem spherical_dist_loss_range_cex :
    2 < spherical_dist_loss (fun _ : Fin 1 => (1 : ℝ)) (fun _ : Fin 1 => (-1 : ℝ)) := by
  have hx : l2norm (fun _ : Fin 1 => (1 : ℝ)) = 1 := by
    unfold l2norm
    rw [Fin.sum_univ_one]
    norm_num
  have hy : l2norm (fun _ : Fin 1 => (-1 : ℝ)) = 1 := by
    unfold l2norm
    rw [Fin.sum_univ_one]
    norm_num
  have hdot : dotp (fun _ : Fin 1 => (1 : ℝ)) (fun _ : Fin 1 => (-1 : ℝ)) = -1 := by
    unfold dotp
    rw [Fin.sum_univ_one]
    norm_num
  rw [spherical_dist_loss_angle hx hy, hdot, Real.arccos_neg_one]
  nlinarith [Real.pi_gt_three]

/-- Claim C3 (amended): the spherical distance loss is 0 when the
normalized embeddings coincide, lies in `[0, pi^2/2]` always, and
increases strictly monotonically with the angular separation
`arccos` of the dot product of unit embeddings. -/
theorem spherical_dist_loss_spec {n : ℕ} (x y u v : Fin n → ℝ)
    (hx : l2norm x = 1) (hy : l2norm y = 1)
    (hu : l2norm u = 1) (hv : l2norm v = 1)
    (hangle : Real.arccos (dotp x y) < Real.arccos (dotp u v)) :
    (∀ a b : Fin n → ℝ, F_normalize a = F_normalize b →
        spherical_dist_loss a b = 0) ∧
    (∀ a b : Fin n → ℝ, 0 ≤ spherical_dist_loss a b ∧
        spherical_dist_loss a b ≤ Real.pi ^ 2 / 2) ∧
    spherical_dist_loss x y < spherical_dist_loss u v := by
  refine ⟨fun a b h => spherical_dist_loss_eq_zero h,
    fun a b => spherical_dist_loss_range a b, ?_⟩
  rw [spherical_dist_loss_angle hx hy, spherical_dist_loss_angle hu hv]
  have h0 : 0 ≤ Real.arccos (dotp x y) := Real.arccos_nonneg _
  have hpow := pow_lt_pow_left₀ hangle h0 (by norm_num : (2 : ℕ) ≠ 0)
  linarith

/-- Witness for the amended C3: the pair `([1,0], [1,0])` at angle 0 and
the pair `([1,0], [0,1])` at angle `pi/2`. -/
theorem spherical_dist_loss_spec_witness :
    l2norm ![(1 : ℝ), 0] = 1 ∧
    l2norm ![(0 : ℝ), 1] = 1 ∧
    Real.arccos (dotp ![(1 : ℝ), 0] ![(1 : ℝ), 0])
      < Real.arccos (dotp ![(1 : ℝ), 0] ![(0 : ℝ), 1]) ∧
    ((∀ a b : Fin 2 → ℝ, F_normalize a = F_normalize b →
        spherical_dist_loss a b = 0) ∧
      (∀ a b : Fin 2 → ℝ, 0 ≤ spherical_dist_loss a b ∧
          spherical_dist_loss a b ≤ Real.pi ^ 2 / 2) ∧
      spherical_dist_loss ![(1 : ℝ), 0] ![(1 : ℝ), 0]
        < spherical_dist_loss ![(1 : ℝ), 0] ![(0 : ℝ), 1]) := by
  have he0 : l2norm ![(1 : ℝ), 0] = 1 := by
    unfold l2norm
    rw [Fin.sum_univ_two]
    norm_num
  have he1 : l2norm ![(0 : ℝ), 1] = 1 := by
    unfold l2norm
    rw [Fin.sum_univ_two]
    norm_num
  have hd00 : dotp ![(1 : ℝ), 0] ![(1 : ℝ), 0] = 1 := by
    unfold dotp
    rw [Fin.sum_univ_two]
    norm_num
  have hd01 : dotp ![(1 : ℝ), 0] ![(0 : ℝ), 1] = 0 := by
    unfold dotp
    rw [Fin.sum_univ_two]
    norm_num
  have hangle : Real.arccos (dotp ![(1 : ℝ), 0] ![(1 : ℝ), 0])
      < Real.arccos (dotp ![(1 : ℝ), 0] ![(0 : ℝ), 1]) := by
    rw [hd00, hd01, Real.arccos_one, Real.arccos_zero]
    exact Real.pi_div_two_pos
  exact ⟨he0, he1, hangle,
    spherical_dist_loss_spec ![(1 : ℝ), 0] ![(1 : ℝ), 0] ![(1 : ℝ), 0] ![(0 : ℝ), 1]
      he0 he0 he0 he1 hangle⟩
